import Mathlib

/-!
Shallow embedding of the ClickPM access-control core, completion cascade and
audit recorder (pm/utils/permission_helpers.py, pm/services/auto_completion.py,
pm/services/audit_service.py, pm/models/task_models.py), together with proofs
of the specified properties.

Relational rows are lists of records; Django querysets become list filters and
existence checks become `List.any`.  Status and visibility values are the
literal strings used by the code.
-/

/-- A user row: pm/models/user_models.py `User` (only the fields the access
resolver consults).  `role` is a nullable FK to `Role`, modelled by its id. -/
structure User where
  id : Nat
  role : Option Nat
deriving DecidableEq

/-- A workspace row: pm/models/workspace_models.py `Workspace`. -/
structure Workspace where
  id : Nat
  ownerId : Nat
deriving DecidableEq

/-- A workspace-membership row: pm/models/workspace_models.py `WorkspaceMember`. -/
structure WorkspaceMember where
  workspaceId : Nat
  userId : Nat
  isAdmin : Bool
deriving DecidableEq

/-- A project row: pm/models/project_models.py `Project`.  The owning
workspace is a non-null FK, embedded here as the attribute traversal
`project.workspace` always dereferences it.  `visibility` is the literal
string `"public"` or `"private"`. -/
structure Project where
  id : Nat
  workspace : Workspace
  visibility : String
deriving DecidableEq

/-- A project-membership row: pm/models/project_models.py `ProjectMember`
(the through table of `Project.members`). -/
structure ProjectMember where
  projectId : Nat
  userId : Nat
deriving DecidableEq

/-- An explicit access grant: pm/models/access_models.py
`WorkspaceProjectAccess`.  The `workspace_member` FK is embedded, matching the
join `workspace_member__user`. -/
structure WorkspaceProjectAccess where
  member : WorkspaceMember
  projectId : Nat
  canView : Bool
  canEdit : Bool
deriving DecidableEq

/-- A role-permission row: pm/models/access_models.py `RolePermission`. -/
structure RolePermission where
  roleId : Nat
  permissionType : String
deriving DecidableEq

/-- The relational store consulted by the permission helpers. -/
structure DB where
  workspaces : List Workspace
  workspaceMembers : List WorkspaceMember
  projects : List Project
  projectMembers : List ProjectMember
  projectAccess : List WorkspaceProjectAccess
  rolePermissions : List RolePermission
deriving DecidableEq

/-- permission_helpers.has_role_permission: false when `user.role` is null,
otherwise an existence check on the RolePermission table. -/
def has_role_permission (db : DB) (user : User) (permissionType : String) : Bool :=
  match user.role with
  | none => false
  | some r =>
      db.rolePermissions.any (fun rp => rp.roleId == r && rp.permissionType == permissionType)

/-- permission_helpers.is_workspace_member. -/
def is_workspace_member (db : DB) (user : User) (workspace : Workspace) : Bool :=
  db.workspaceMembers.any (fun m => m.workspaceId == workspace.id && m.userId == user.id)

/-- permission_helpers.can_user_view_project: the five-rule short-circuit
chain.  Rule 5 in the source also tests `project.workspace`, which is a
non-null FK and hence always truthy in this embedding. -/
def can_user_view_project (db : DB) (user : User) (project : Project) : Bool :=
  -- 1. Project member
  if db.projectMembers.any (fun m => m.projectId == project.id && m.userId == user.id) then
    true
  -- 2. Workspace Owner
  else if project.workspace.ownerId == user.id then
    true
  -- 3. Workspace Admin
  else if db.workspaceMembers.any
      (fun m => m.workspaceId == project.workspace.id && m.userId == user.id && m.isAdmin) then
    true
  -- 4. Explicit Access Grant
  else if db.projectAccess.any
      (fun g => g.member.userId == user.id && g.projectId == project.id && g.canView) then
    true
  -- 5. Public Project in User's Workspace
  else if project.visibility == "public" then
    db.workspaceMembers.any
      (fun m => m.workspaceId == project.workspace.id && m.userId == user.id)
  else
    false

/-- permission_helpers.can_user_edit_project. -/
def can_user_edit_project (db : DB) (user : User) (project : Project) : Bool :=
  -- 1. Project member
  if db.projectMembers.any (fun m => m.projectId == project.id && m.userId == user.id) then
    true
  -- 2. Workspace Owner
  else if project.workspace.ownerId == user.id then
    true
  -- 3. Workspace Admin
  else if db.workspaceMembers.any
      (fun m => m.workspaceId == project.workspace.id && m.userId == user.id && m.isAdmin) then
    true
  -- 4. Explicit Edit Grant
  else if db.projectAccess.any
      (fun g => g.member.userId == user.id && g.projectId == project.id && g.canEdit) then
    true
  -- 5. Role Permission (still need to be at least a workspace member)
  else if has_role_permission db user "project.edit" then
    is_workspace_member db user project.workspace
  else
    false

/-- permission_helpers.get_accessible_projects, clause by clause:
`member_projects = Project.objects.filter(members=user)`. -/
def member_project_ids (db : DB) (user : User) : List Nat :=
  (db.projects.filter (fun p =>
    db.projectMembers.any (fun m => m.projectId == p.id && m.userId == user.id))).map (·.id)

/-- `admin_workspaces = WorkspaceMember.objects.filter(user=user, is_admin=True)`. -/
def admin_workspace_ids (db : DB) (user : User) : List Nat :=
  (db.workspaceMembers.filter (fun m => m.userId == user.id && m.isAdmin)).map (·.workspaceId)

/-- `owned_workspaces = Workspace.objects.filter(owner=user)`. -/
def owned_workspace_ids (db : DB) (user : User) : List Nat :=
  (db.workspaces.filter (fun w => w.ownerId == user.id)).map (·.id)

/-- `granted_project_ids = WorkspaceProjectAccess.objects.filter(
workspace_member__user=user, can_view=True)`. -/
def granted_project_ids (db : DB) (user : User) : List Nat :=
  (db.projectAccess.filter (fun g => g.member.userId == user.id && g.canView)).map (·.projectId)

/-- `member_workspace_ids = WorkspaceMember.objects.filter(user=user)`. -/
def member_workspace_ids (db : DB) (user : User) : List Nat :=
  (db.workspaceMembers.filter (fun m => m.userId == user.id)).map (·.workspaceId)

/-- permission_helpers.get_accessible_projects: the combined filter.
`all_admin_workspace_ids` is the set union of admin and owned workspace ids;
membership in the union is membership in the concatenation. -/
def get_accessible_projects (db : DB) (user : User) : List Project :=
  db.projects.filter (fun p =>
    (member_project_ids db user).contains p.id ||
    (admin_workspace_ids db user ++ owned_workspace_ids db user).contains p.workspace.id ||
    (granted_project_ids db user).contains p.id ||
    ((member_workspace_ids db user).contains p.workspace.id && p.visibility == "public"))

/-- The editable-fields component of a task edit decision:
`'all'` or an explicit field-name list. -/
inductive EditableFields where
  | all
  | fields (fs : List String)
deriving DecidableEq

/-- The structured result of permission_helpers.can_user_edit_task. -/
structure TaskEditPermission where
  canEdit : Bool
  fields : EditableFields
deriving DecidableEq

/-- The project reached by `task.sprint.milestone.project`; for the access
resolver only the end of the chain matters, so the embedded chain carries the
project directly at the milestone level. -/
structure PMilestone where
  project : Project
deriving DecidableEq

structure PSprint where
  milestone : PMilestone
deriving DecidableEq

/-- A task as seen by the task-level permission checks
(pm/utils/permission_helpers.py): assignee and reporter are nullable FKs. -/
structure PTask where
  sprint : PSprint
  assigneeId : Option Nat
  reporterId : Option Nat
deriving DecidableEq

/-- permission_helpers.can_user_view_task. -/
def can_user_view_task (db : DB) (user : User) (task : PTask) : Bool :=
  if task.assigneeId == some user.id || task.reporterId == some user.id then
    true
  else
    can_user_view_project db user task.sprint.milestone.project

/-- permission_helpers.can_user_edit_task. -/
def can_user_edit_task (db : DB) (user : User) (task : PTask) : TaskEditPermission :=
  let project := task.sprint.milestone.project
  if can_user_edit_project db user project then
    ⟨true, .all⟩
  else if task.assigneeId == some user.id then
    ⟨true, .fields ["status", "description", "start_date", "due_date"]⟩
  else if has_role_permission db user "task.edit" then
    if can_user_view_project db user project then
      ⟨true, .all⟩
    else
      ⟨false, .fields []⟩
  else
    ⟨false, .fields []⟩

/-! ### Helper lemmas: propositional characterizations of the rule chains -/

/-- The five view rules, as propositions (used by several claims). -/
def ViewRule1 (db : DB) (user : User) (project : Project) : Prop :=
  ∃ m ∈ db.projectMembers, m.projectId = project.id ∧ m.userId = user.id

def ViewRule2 (user : User) (project : Project) : Prop :=
  project.workspace.ownerId = user.id

def ViewRule3 (db : DB) (user : User) (project : Project) : Prop :=
  ∃ m ∈ db.workspaceMembers,
    m.workspaceId = project.workspace.id ∧ m.userId = user.id ∧ m.isAdmin = true

def ViewRule4 (db : DB) (user : User) (project : Project) : Prop :=
  ∃ g ∈ db.projectAccess,
    g.member.userId = user.id ∧ g.projectId = project.id ∧ g.canView = true

def ViewRule5 (db : DB) (user : User) (project : Project) : Prop :=
  project.visibility = "public" ∧
    ∃ m ∈ db.workspaceMembers, m.workspaceId = project.workspace.id ∧ m.userId = user.id

lemma can_user_view_project_iff (db : DB) (user : User) (project : Project) :
    can_user_view_project db user project = true ↔
      ViewRule1 db user project ∨ ViewRule2 user project ∨ ViewRule3 db user project ∨
        ViewRule4 db user project ∨ ViewRule5 db user project := by
  unfold can_user_view_project ViewRule1 ViewRule2 ViewRule3 ViewRule4 ViewRule5
  split_ifs with h1 h2 h3 h4 h5
  · simp only [List.any_eq_true, Bool.and_eq_true, beq_iff_eq] at h1
    simp only [eq_self_iff_true, true_iff]
    exact Or.inl h1
  · simp only [beq_iff_eq] at h2
    simp only [eq_self_iff_true, true_iff]
    exact Or.inr (Or.inl h2)
  · simp only [List.any_eq_true, Bool.and_eq_true, beq_iff_eq, and_assoc] at h3
    simp only [eq_self_iff_true, true_iff]
    exact Or.inr (Or.inr (Or.inl h3))
  · simp only [List.any_eq_true, Bool.and_eq_true, beq_iff_eq, and_assoc] at h4
    simp only [eq_self_iff_true, true_iff]
    exact Or.inr (Or.inr (Or.inr (Or.inl h4)))
  · simp only [List.any_eq_true, Bool.and_eq_true, beq_iff_eq, and_assoc] at h1 h3 h4 ⊢
    simp only [beq_iff_eq] at h2 h5
    constructor
    · intro hm
      exact Or.inr (Or.inr (Or.inr (Or.inr ⟨h5, hm⟩)))
    · rintro (h | h | h | h | h)
      · exact absurd h h1
      · exact absurd h h2
      · exact absurd h h3
      · exact absurd h h4
      · exact h.2
  · simp only [List.any_eq_true, Bool.and_eq_true, beq_iff_eq, and_assoc] at h1 h3 h4
    simp only [beq_iff_eq] at h2 h5
    simp only [Bool.false_eq_true, false_iff]
    rintro (h | h | h | h | h)
    · exact h1 h
    · exact h2 h
    · exact h3 h
    · exact h4 h
    · exact h5 h.1

/-! ### Completion cascade (pm/services/auto_completion.py, pm/models/task_models.py) -/

/-- A task row as seen by the cascade: pm/models/task_models.py `Task`
(`sprint` is a non-null FK, `status` one of the four pipeline strings). -/
structure TaskRow where
  id : Nat
  sprintId : Nat
  status : String
deriving DecidableEq

/-- A sprint row: pm/models/project_models.py `Sprint`. -/
structure SprintRow where
  id : Nat
  milestoneId : Nat
  status : String
deriving DecidableEq

/-- A milestone row: pm/models/project_models.py `Milestone`. -/
structure MilestoneRow where
  id : Nat
  projectId : Nat
  status : String
deriving DecidableEq

/-- A project row as seen by the cascade (status plus owning workspace). -/
structure ProjectRow where
  id : Nat
  workspaceId : Nat
  status : String
deriving DecidableEq

/-- The hierarchy state the cascade reads and writes. -/
structure CState where
  tasks : List TaskRow
  sprints : List SprintRow
  milestones : List MilestoneRow
  projects : List ProjectRow
deriving DecidableEq

/-- A completion notification batch: `_create_completion_notification` /
`_create_workspace_completion_notification`, one event per completed entity
(the source fans each event out to the project or workspace members). -/
inductive CEvent where
  | sprintCompleted (id : Nat)
  | milestoneCompleted (id : Nat)
  | projectCompleted (id : Nat)
  | workspaceCompleted (id : Nat)
deriving DecidableEq

def findSprint (st : CState) (sid : Nat) : Option SprintRow :=
  st.sprints.find? (fun s => s.id == sid)

def findMilestone (st : CState) (mid : Nat) : Option MilestoneRow :=
  st.milestones.find? (fun m => m.id == mid)

def findProject (st : CState) (pid : Nat) : Option ProjectRow :=
  st.projects.find? (fun p => p.id == pid)

/-- `sprint.tasks.count()`. -/
def sprintTaskCount (st : CState) (sid : Nat) : Nat :=
  (st.tasks.filter (fun t => t.sprintId == sid)).length

/-- `sprint.tasks.filter(status='Done').count()`. -/
def sprintDoneCount (st : CState) (sid : Nat) : Nat :=
  (st.tasks.filter (fun t => t.sprintId == sid && t.status == "Done")).length

/-- `milestone.sprints.count()`. -/
def milestoneSprintCount (st : CState) (mid : Nat) : Nat :=
  (st.sprints.filter (fun s => s.milestoneId == mid)).length

/-- `milestone.sprints.filter(status='Completed').count()`. -/
def milestoneCompletedCount (st : CState) (mid : Nat) : Nat :=
  (st.sprints.filter (fun s => s.milestoneId == mid && s.status == "Completed")).length

/-- `project.milestones.count()`. -/
def projectMilestoneCount (st : CState) (pid : Nat) : Nat :=
  (st.milestones.filter (fun m => m.projectId == pid)).length

/-- `project.milestones.filter(status='Completed').count()`. -/
def projectCompletedCount (st : CState) (pid : Nat) : Nat :=
  (st.milestones.filter (fun m => m.projectId == pid && m.status == "Completed")).length

/-- `workspace.projects.count()`. -/
def workspaceProjectCount (st : CState) (wid : Nat) : Nat :=
  (st.projects.filter (fun p => p.workspaceId == wid)).length

/-- `workspace.projects.filter(status='Completed').count()`. -/
def workspaceCompletedCount (st : CState) (wid : Nat) : Nat :=
  (st.projects.filter (fun p => p.workspaceId == wid && p.status == "Completed")).length

/-- `sprint.status = v; sprint.save(update_fields=['status'])`. -/
def setSprintStatus (st : CState) (sid : Nat) (v : String) : CState :=
  { st with sprints := st.sprints.map (fun s => if s.id == sid then { s with status := v } else s) }

def setMilestoneStatus (st : CState) (mid : Nat) (v : String) : CState :=
  { st with milestones :=
      st.milestones.map (fun m => if m.id == mid then { m with status := v } else m) }

def setProjectStatus (st : CState) (pid : Nat) (v : String) : CState :=
  { st with projects :=
      st.projects.map (fun p => if p.id == pid then { p with status := v } else p) }

/-- AutoCompletionService._check_and_complete_workspace. -/
def checkAndCompleteWorkspace (st : CState) (wid : Nat) : CState × List CEvent :=
  let total := workspaceProjectCount st wid
  if total = 0 then (st, [])
  else if workspaceCompletedCount st wid = total then
    (st, [CEvent.workspaceCompleted wid])
  else (st, [])

/-- AutoCompletionService._check_and_complete_project. -/
def checkAndCompleteProject (st : CState) (pid : Nat) : CState × List CEvent :=
  match findProject st pid with
  | none => (st, [])
  | some p =>
    let total := projectMilestoneCount st pid
    if total = 0 then (st, [])
    else if projectCompletedCount st pid = total then
      if p.status ≠ "Completed" then
        let st1 := setProjectStatus st pid "Completed"
        let r := checkAndCompleteWorkspace st1 p.workspaceId
        (r.1, CEvent.projectCompleted pid :: r.2)
      else (st, [])
    else (st, [])

/-- AutoCompletionService._check_and_complete_milestone. -/
def checkAndCompleteMilestone (st : CState) (mid : Nat) : CState × List CEvent :=
  match findMilestone st mid with
  | none => (st, [])
  | some m =>
    let total := milestoneSprintCount st mid
    if total = 0 then (st, [])
    else if milestoneCompletedCount st mid = total then
      if m.status ≠ "Completed" then
        let st1 := setMilestoneStatus st mid "Completed"
        let r := checkAndCompleteProject st1 m.projectId
        (r.1, CEvent.milestoneCompleted mid :: r.2)
      else (st, [])
    else (st, [])

/-- AutoCompletionService._check_and_complete_sprint. -/
def checkAndCompleteSprint (st : CState) (sid : Nat) : CState × List CEvent :=
  match findSprint st sid with
  | none => (st, [])
  | some s =>
    let total := sprintTaskCount st sid
    if total = 0 then (st, [])
    else if sprintDoneCount st sid = total then
      if s.status ≠ "Completed" then
        let st1 := setSprintStatus st sid "Completed"
        let r := checkAndCompleteMilestone st1 s.milestoneId
        (r.1, CEvent.sprintCompleted sid :: r.2)
      else (st, [])
    else (st, [])

/-- AutoCompletionService.trigger_auto_completion (also the body of
auto_complete_on_task_done): returns immediately unless the task status is
Done, otherwise starts the chain at the task's sprint. -/
def trigger_auto_completion (st : CState) (task : TaskRow) : CState × List CEvent :=
  if task.status ≠ "Done" then (st, [])
  else checkAndCompleteSprint st task.sprintId

/-- `super().save()` inside Task.save: insert the row if its pk is new,
otherwise overwrite the row with that pk. -/
def persistTask (st : CState) (t : TaskRow) : CState :=
  { st with tasks :=
      if st.tasks.any (fun r => r.id == t.id) then
        st.tasks.map (fun r => if r.id == t.id then t else r)
      else
        st.tasks ++ [t] }

/-- Task.save (pm/models/task_models.py): read the previously persisted status
(None when the task has no pk or the row is gone), persist, then fire the
trigger exactly on the not-Done-to-Done edge. -/
def taskSave (st : CState) (oldRow : Option TaskRow) (t : TaskRow) : CState × List CEvent :=
  let oldStatus : Option String := oldRow.map (·.status)
  let st1 := persistTask st t
  if oldStatus ≠ some "Done" ∧ t.status = "Done" then
    trigger_auto_completion st1 t
  else (st1, [])

/-! ### Cascade structural lemmas -/

lemma checkAndCompleteWorkspace_fst (st : CState) (wid : Nat) :
    (checkAndCompleteWorkspace st wid).1 = st := by
  simp only [checkAndCompleteWorkspace]
  split_ifs <;> rfl

lemma checkAndCompleteProject_tasks (st : CState) (pid : Nat) :
    (checkAndCompleteProject st pid).1.tasks = st.tasks := by
  cases hp : findProject st pid with
  | none => simp [checkAndCompleteProject, hp]
  | some p =>
    simp only [checkAndCompleteProject, hp]
    split_ifs <;> simp [checkAndCompleteWorkspace_fst, setProjectStatus]

lemma checkAndCompleteProject_sprints (st : CState) (pid : Nat) :
    (checkAndCompleteProject st pid).1.sprints = st.sprints := by
  cases hp : findProject st pid with
  | none => simp [checkAndCompleteProject, hp]
  | some p =>
    simp only [checkAndCompleteProject, hp]
    split_ifs <;> simp [checkAndCompleteWorkspace_fst, setProjectStatus]

lemma checkAndCompleteMilestone_tasks (st : CState) (mid : Nat) :
    (checkAndCompleteMilestone st mid).1.tasks = st.tasks := by
  cases hm : findMilestone st mid with
  | none => simp [checkAndCompleteMilestone, hm]
  | some m =>
    simp only [checkAndCompleteMilestone, hm]
    split_ifs <;> simp [checkAndCompleteProject_tasks, setMilestoneStatus]

lemma checkAndCompleteMilestone_sprints (st : CState) (mid : Nat) :
    (checkAndCompleteMilestone st mid).1.sprints = st.sprints := by
  cases hm : findMilestone st mid with
  | none => simp [checkAndCompleteMilestone, hm]
  | some m =>
    simp only [checkAndCompleteMilestone, hm]
    split_ifs <;> simp [checkAndCompleteProject_sprints, setMilestoneStatus]

lemma findSprint_setSprintStatus (st : CState) (sid : Nat) (v : String) :
    findSprint (setSprintStatus st sid v) sid =
      (findSprint st sid).map (fun s => { s with status := v }) := by
  unfold findSprint setSprintStatus
  simp only
  induction st.sprints with
  | nil => rfl
  | cons a l ih =>
    by_cases ha : a.id = sid
    · simp [List.find?_cons, ha]
    · have hb : (a.id == sid) = false := by simp [ha]
      simp only [List.map_cons, hb, Bool.false_eq_true, if_false, List.find?_cons]
      exact ih

lemma sprintTaskCount_eq_of_tasks (st st2 : CState) (sid : Nat) (h : st2.tasks = st.tasks) :
    sprintTaskCount st2 sid = sprintTaskCount st sid := by
  simp [sprintTaskCount, h]

lemma sprintDoneCount_eq_of_tasks (st st2 : CState) (sid : Nat) (h : st2.tasks = st.tasks) :
    sprintDoneCount st2 sid = sprintDoneCount st sid := by
  simp [sprintDoneCount, h]

/-- Re-running the sprint check on the state it produced is a no-op: either
the first run did not change the state, or it marked the sprint Completed and
the second run stops at the `status != 'Completed'` guard. -/
lemma checkAndCompleteSprint_idem (st : CState) (sid : Nat) :
    checkAndCompleteSprint (checkAndCompleteSprint st sid).1 sid =
      ((checkAndCompleteSprint st sid).1, []) := by
  cases hs : findSprint st sid with
  | none => simp [checkAndCompleteSprint, hs]
  | some s =>
    by_cases h0 : sprintTaskCount st sid = 0
    · simp [checkAndCompleteSprint, hs, h0]
    · by_cases hd : sprintDoneCount st sid = sprintTaskCount st sid
      · by_cases hc : s.status = "Completed"
        · simp [checkAndCompleteSprint, hs, h0, hd, hc]
        · have hres : checkAndCompleteSprint st sid =
              ((checkAndCompleteMilestone (setSprintStatus st sid "Completed") s.milestoneId).1,
               CEvent.sprintCompleted sid ::
                 (checkAndCompleteMilestone (setSprintStatus st sid "Completed") s.milestoneId).2) := by
            simp [checkAndCompleteSprint, hs, h0, hd, hc]
          set st2 :=
            (checkAndCompleteMilestone (setSprintStatus st sid "Completed") s.milestoneId).1 with hst2
          have htasks : st2.tasks = st.tasks := by
            rw [hst2, checkAndCompleteMilestone_tasks]
            rfl
          have hsprints : st2.sprints = (setSprintStatus st sid "Completed").sprints := by
            rw [hst2, checkAndCompleteMilestone_sprints]
          have hfind : findSprint st2 sid = some { s with status := "Completed" } := by
            have : findSprint st2 sid = findSprint (setSprintStatus st sid "Completed") sid := by
              unfold findSprint
              rw [hsprints]
            rw [this, findSprint_setSprintStatus, hs]
            rfl
          have hcount := sprintTaskCount_eq_of_tasks st st2 sid htasks
          have hdone := sprintDoneCount_eq_of_tasks st st2 sid htasks
          rw [hres]
          simp [checkAndCompleteSprint, hfind, hcount, hdone, h0, hd]
      · simp [checkAndCompleteSprint, hs, h0, hd]

/-! ### Audit recorder (pm/services/audit_service.py) -/

/-- A serialized audit value, as stored in old/new state snapshots:
`None`, a scalar, an isoformat date string, or the `{id, display}` map
produced for foreign keys. -/
inductive AVal where
  | vnone
  | vstr (s : String)
  | vint (n : Int)
  | vdate (d : String)
  | vfk (id : Int) (display : String)
deriving DecidableEq

/-- A raw Python attribute value before serialization: `serialize_model_state`
dispatches on `hasattr(value, 'pk')` (a model instance) and
`hasattr(value, 'isoformat')` (a date). -/
inductive PyVal where
  | pynone
  | pystr (s : String)
  | pyint (n : Int)
  | pydate (d : String)
  | pyobj (pk : Int) (display : String)
deriving DecidableEq

/-- The per-value branch of `serialize_model_state`: model instances become
`{id, display}` maps, dates their isoformat string, scalars themselves. -/
def serializeVal : PyVal → AVal
  | .pynone => .vnone
  | .pystr s => .vstr s
  | .pyint n => .vint n
  | .pydate d => .vdate d
  | .pyobj pk display => .vfk pk display

/-- A state snapshot: field name to serialized value. -/
abbrev AState := List (String × AVal)

/-- `serialize_model_state`: each attribute access sits in its own
try/except, so a failing getter yields `None` for that field and never
escapes.  A field's getter is modelled as `Except`, the exception effect. -/
def serialize_model_state (fields : List (String × Except String PyVal)) : AState :=
  fields.map (fun kv =>
    (kv.1, match kv.2 with
           | .ok v => serializeVal v
           | .error _ => AVal.vnone))

/-- `state.get(key)`: missing keys read as `None`. -/
def aget (state : AState) (k : String) : AVal :=
  match state.find? (fun kv => kv.1 == k) with
  | some kv => kv.2
  | none => AVal.vnone

/-- The per-key comparison of `compute_changes`: two nested dicts (FK
captures) compare by their `id` alone; anything else by plain inequality. -/
def valuesDiffer (oldVal newVal : AVal) : Bool :=
  match oldVal, newVal with
  | .vfk id1 _, .vfk id2 _ => !(id1 == id2)
  | o, n => !(o == n)

/-- `all_keys = set(old_state.keys()) | set(new_state.keys())` (as a
duplicate-free list; the claims only consume it through membership). -/
def allKeys (oldState newState : AState) : List String :=
  (oldState.map Prod.fst ++ newState.map Prod.fst).dedup

/-- audit_service.compute_changes: the changed keys with their old and new
values. -/
def compute_changes (oldState newState : AState) : List (String × AVal × AVal) :=
  (allKeys oldState newState).filterMap (fun k =>
    let o := aget oldState k
    let n := aget newState k
    if valuesDiffer o n then some (k, o, n) else none)

/-- `list(changes.keys())` inside log_update, including its guard
`... if old_state else {}`: Python truthiness makes both `None` and the
empty dict skip the diff entirely. -/
def log_update_changed_fields (oldState : Option AState) (newState : AState) : List String :=
  match oldState with
  | none => []
  | some os => if os.isEmpty then [] else (compute_changes os newState).map Prod.fst

/-- The containment chain walked by `get_entity_context` for a Task.  Every
parent reference is modelled as `Option`: `None` mid-chain is exactly the
defensive case the `except AttributeError` handler exists for. -/
structure CtxWorkspace where
  id : Int
  name : String

structure CtxProject where
  id : Int
  name : String
  workspace : Option CtxWorkspace

structure CtxMilestone where
  id : Int
  name : String
  project : Option CtxProject

structure CtxSprint where
  id : Int
  name : String
  milestone : Option CtxMilestone

/-- A task instance as the audit recorder sees it: its id/title, its parent
chain, and its auditable attributes (each getter may raise). -/
structure CtxTask where
  id : Int
  title : String
  sprint : Option CtxSprint
  fields : List (String × Except String PyVal)

/-- Dereferencing a nullable parent: `None.attr` raises AttributeError. -/
def attrOrError {α : Type} : Option α → Except String α
  | some x => .ok x
  | none => .error "AttributeError"

/-- The try-body of `get_entity_context` for a Task: the very first
assignment walks `instance.sprint.milestone.project.workspace`, so a null
parent anywhere raises before any context key is stored. -/
def get_entity_context_raw (t : CtxTask) : Except String (List (String × AVal)) := do
  let sp ← attrOrError t.sprint
  let mi ← attrOrError sp.milestone
  let pr ← attrOrError mi.project
  let wk ← attrOrError pr.workspace
  pure [("workspace_id", .vint wk.id), ("workspace_name", .vstr wk.name),
        ("project_id", .vint pr.id), ("project_name", .vstr pr.name),
        ("milestone_id", .vint mi.id), ("milestone_name", .vstr mi.name),
        ("sprint_id", .vint sp.id), ("sprint_name", .vstr sp.name),
        ("task_id", .vint t.id), ("task_title", .vstr t.title)]

/-- audit_service.get_entity_context: the `except AttributeError: pass`
handler returns the context accumulated so far, which for the Task branch is
empty because the first assignment already needs the whole chain. -/
def get_entity_context (t : CtxTask) : List (String × AVal) :=
  match get_entity_context_raw t with
  | .ok c => c
  | .error _ => []

/-- An ActivityLog row as built by the AuditService entry points. -/
structure LogEntry where
  action : String
  objectId : Int
  old_value : Option AState
  new_value : Option AState
  context : List (String × AVal)
  changed_fields : List String

/-- AuditService.log_update, in the exception monad: the only failure-capable
steps are field serialization and context enrichment, both already wrapped in
their own handlers. -/
def log_update (t : CtxTask) (oldState : Option AState) : Except String LogEntry := do
  let newState := serialize_model_state t.fields
  let context := get_entity_context t
  let changed := log_update_changed_fields oldState newState
  pure { action := "UPDATED", objectId := t.id, old_value := oldState,
         new_value := some newState, context := context, changed_fields := changed }

/-- AuditService.log_create. -/
def log_create (t : CtxTask) : Except String LogEntry := do
  let newState := serialize_model_state t.fields
  let context := get_entity_context t
  pure { action := "CREATED", objectId := t.id, old_value := none,
         new_value := some newState, context := context, changed_fields := [] }

/-- AuditService.log_delete. -/
def log_delete (t : CtxTask) : Except String LogEntry := do
  let oldState := serialize_model_state t.fields
  let context := get_entity_context t
  pure { action := "DELETED", objectId := t.id, old_value := some oldState,
         new_value := none, context := context, changed_fields := [] }

/-- AuditService.log_event. -/
def log_event (t : CtxTask) (action : String)
    (oldState newState : Option AState) : Except String LogEntry := do
  let context := get_entity_context t
  pure { action := action, objectId := t.id, old_value := oldState,
         new_value := newState, context := context, changed_fields := [] }

/-! ### More rule characterizations -/

/-- Rule 4 of can_user_edit_project: an explicit grant with `can_edit`. -/
def EditRule4 (db : DB) (user : User) (project : Project) : Prop :=
  ∃ g ∈ db.projectAccess,
    g.member.userId = user.id ∧ g.projectId = project.id ∧ g.canEdit = true

/-- Rule 5 of can_user_edit_project: role permission plus workspace
membership. -/
def EditRule5 (db : DB) (user : User) (project : Project) : Prop :=
  has_role_permission db user "project.edit" = true ∧
    ∃ m ∈ db.workspaceMembers, m.workspaceId = project.workspace.id ∧ m.userId = user.id

lemma can_user_edit_project_iff (db : DB) (user : User) (project : Project) :
    can_user_edit_project db user project = true ↔
      ViewRule1 db user project ∨ ViewRule2 user project ∨ ViewRule3 db user project ∨
        EditRule4 db user project ∨ EditRule5 db user project := by
  unfold can_user_edit_project ViewRule1 ViewRule2 ViewRule3 EditRule4 EditRule5
    is_workspace_member
  split_ifs with h1 h2 h3 h4 h5
  · simp only [List.any_eq_true, Bool.and_eq_true, beq_iff_eq] at h1
    simp only [eq_self_iff_true, true_iff]
    exact Or.inl h1
  · simp only [beq_iff_eq] at h2
    simp only [eq_self_iff_true, true_iff]
    exact Or.inr (Or.inl h2)
  · simp only [List.any_eq_true, Bool.and_eq_true, beq_iff_eq, and_assoc] at h3
    simp only [eq_self_iff_true, true_iff]
    exact Or.inr (Or.inr (Or.inl h3))
  · simp only [List.any_eq_true, Bool.and_eq_true, beq_iff_eq, and_assoc] at h4
    simp only [eq_self_iff_true, true_iff]
    exact Or.inr (Or.inr (Or.inr (Or.inl h4)))
  · simp only [List.any_eq_true, Bool.and_eq_true, beq_iff_eq, and_assoc] at h1 h3 h4 ⊢
    simp only [beq_iff_eq] at h2
    constructor
    · intro hm
      exact Or.inr (Or.inr (Or.inr (Or.inr ⟨h5, hm⟩)))
    · rintro (h | h | h | h | h)
      · exact absurd h h1
      · exact absurd h h2
      · exact absurd h h3
      · exact absurd h h4
      · exact h.2
  · simp only [List.any_eq_true, Bool.and_eq_true, beq_iff_eq, and_assoc] at h1 h3 h4
    simp only [beq_iff_eq] at h2
    simp only [Bool.false_eq_true, false_iff]
    rintro (h | h | h | h | h)
    · exact h1 h
    · exact h2 h
    · exact h3 h
    · exact h4 h
    · exact h5 h.1

/-! ### get_accessible_projects vs can_user_view_project, clause by clause -/

lemma mem_member_project_ids_iff (db : DB) (u : User) (p : Project) (hp : p ∈ db.projects) :
    (member_project_ids db u).contains p.id = true ↔ ViewRule1 db u p := by
  have hc : (member_project_ids db u).contains p.id = true ↔ p.id ∈ member_project_ids db u := by
    simp
  rw [hc]
  unfold member_project_ids ViewRule1
  rw [List.mem_map]
  constructor
  · rintro ⟨q, hq, hqid⟩
    rw [List.mem_filter] at hq
    obtain ⟨hq1, hq2⟩ := hq
    rw [List.any_eq_true] at hq2
    obtain ⟨m, hm, hmp⟩ := hq2
    simp only [Bool.and_eq_true, beq_iff_eq] at hmp
    exact ⟨m, hm, by rw [hmp.1, hqid], hmp.2⟩
  · rintro ⟨m, hm, h1, h2⟩
    refine ⟨p, ?_, rfl⟩
    rw [List.mem_filter]
    refine ⟨hp, ?_⟩
    rw [List.any_eq_true]
    exact ⟨m, hm, by simp [h1, h2]⟩

lemma mem_admin_owned_iff (db : DB) (u : User) (p : Project) (hp : p ∈ db.projects)
    (hwf : ∀ q ∈ db.projects, q.workspace ∈ db.workspaces)
    (hwid : ∀ w1 ∈ db.workspaces, ∀ w2 ∈ db.workspaces, w1.id = w2.id → w1 = w2) :
    (admin_workspace_ids db u ++ owned_workspace_ids db u).contains p.workspace.id = true ↔
      ViewRule2 u p ∨ ViewRule3 db u p := by
  have hc : (admin_workspace_ids db u ++ owned_workspace_ids db u).contains p.workspace.id = true ↔
      p.workspace.id ∈ admin_workspace_ids db u ++ owned_workspace_ids db u := by
    simp
  rw [hc, List.mem_append]
  unfold admin_workspace_ids owned_workspace_ids ViewRule2 ViewRule3
  constructor
  · rintro (h | h)
    · rw [List.mem_map] at h
      obtain ⟨m, hm, hmw⟩ := h
      rw [List.mem_filter] at hm
      obtain ⟨hm1, hm2⟩ := hm
      simp only [Bool.and_eq_true, beq_iff_eq] at hm2
      exact Or.inr ⟨m, hm1, hmw, hm2.1, hm2.2⟩
    · rw [List.mem_map] at h
      obtain ⟨w, hw, hww⟩ := h
      rw [List.mem_filter] at hw
      obtain ⟨hw1, hw2⟩ := hw
      simp only [beq_iff_eq] at hw2
      have := hwid w hw1 p.workspace (hwf p hp) hww
      left
      rw [← this, hw2]
  · rintro (h | h)
    · right
      rw [List.mem_map]
      refine ⟨p.workspace, ?_, rfl⟩
      rw [List.mem_filter]
      exact ⟨hwf p hp, by simp [h]⟩
    · left
      obtain ⟨m, hm, h1, h2, h3⟩ := h
      rw [List.mem_map]
      refine ⟨m, ?_, h1⟩
      rw [List.mem_filter]
      exact ⟨hm, by simp [h2, h3]⟩

lemma mem_granted_project_ids_iff (db : DB) (u : User) (p : Project) :
    (granted_project_ids db u).contains p.id = true ↔ ViewRule4 db u p := by
  have hc : (granted_project_ids db u).contains p.id = true ↔
      p.id ∈ granted_project_ids db u := by
    simp
  rw [hc]
  unfold granted_project_ids ViewRule4
  rw [List.mem_map]
  constructor
  · rintro ⟨g, hg, hgid⟩
    rw [List.mem_filter] at hg
    obtain ⟨hg1, hg2⟩ := hg
    simp only [Bool.and_eq_true, beq_iff_eq] at hg2
    exact ⟨g, hg1, hg2.1, hgid, hg2.2⟩
  · rintro ⟨g, hg, h1, h2, h3⟩
    refine ⟨g, ?_, h2⟩
    rw [List.mem_filter]
    exact ⟨hg, by simp [h1, h3]⟩

lemma mem_public_member_iff (db : DB) (u : User) (p : Project) :
    ((member_workspace_ids db u).contains p.workspace.id && (p.visibility == "public")) = true ↔
      ViewRule5 db u p := by
  rw [Bool.and_eq_true]
  have hc : (member_workspace_ids db u).contains p.workspace.id = true ↔
      p.workspace.id ∈ member_workspace_ids db u := by
    simp
  rw [hc]
  unfold member_workspace_ids ViewRule5
  rw [List.mem_map]
  constructor
  · rintro ⟨⟨m, hm, hmw⟩, hv⟩
    rw [List.mem_filter] at hm
    obtain ⟨hm1, hm2⟩ := hm
    simp only [beq_iff_eq] at hm2 hv
    exact ⟨hv, m, hm1, hmw, hm2⟩
  · rintro ⟨hv, m, hm, h1, h2⟩
    refine ⟨⟨m, ?_, h1⟩, by simp [hv]⟩
    rw [List.mem_filter]
    exact ⟨hm, by simp [h2]⟩


/-! ### Claim theorems -/

/-- C1 (counterexample): edit permission does NOT imply view permission.  A
user whose role carries the `project.edit` permission and who is a plain
(non-admin) member of the workspace of a private project can edit it via
edit rule 5, but no view rule matches, so `can_user_view_project` is false. -/
theorem edit_implies_view_counterexample :
    can_user_edit_project
        { workspaces := [{ id := 1, ownerId := 2 }],
          workspaceMembers := [{ workspaceId := 1, userId := 1, isAdmin := false }],
          projects := [{ id := 1, workspace := { id := 1, ownerId := 2 },
                         visibility := "private" }],
          projectMembers := [], projectAccess := [],
          rolePermissions := [{ roleId := 10, permissionType := "project.edit" }] }
        { id := 1, role := some 10 }
        { id := 1, workspace := { id := 1, ownerId := 2 }, visibility := "private" } = true ∧
      can_user_view_project
        { workspaces := [{ id := 1, ownerId := 2 }],
          workspaceMembers := [{ workspaceId := 1, userId := 1, isAdmin := false }],
          projects := [{ id := 1, workspace := { id := 1, ownerId := 2 },
                         visibility := "private" }],
          projectMembers := [], projectAccess := [],
          rolePermissions := [{ roleId := 10, permissionType := "project.edit" }] }
        { id := 1, role := some 10 }
        { id := 1, workspace := { id := 1, ownerId := 2 }, visibility := "private" } = false :=
  ⟨by decide, by decide⟩

/-- C1 (amended): edit implies view provided (a) every explicit grant for
this user and project that confers `can_edit` also confers `can_view`, and
(b) if the user holds the `project.edit` role permission then the project is
public (otherwise edit rule 5 grants edit on a project no view rule covers). -/
theorem edit_implies_view_amended (db : DB) (user : User) (project : Project)
    (hgrant : ∀ g ∈ db.projectAccess, g.member.userId = user.id → g.projectId = project.id →
      g.canEdit = true → g.canView = true)
    (hrole : has_role_permission db user "project.edit" = true → project.visibility = "public")
    (h : can_user_edit_project db user project = true) :
    can_user_view_project db user project = true := by
  rw [can_user_view_project_iff]
  rw [can_user_edit_project_iff] at h
  rcases h with h | h | h | h | h
  · exact Or.inl h
  · exact Or.inr (Or.inl h)
  · exact Or.inr (Or.inr (Or.inl h))
  · obtain ⟨g, hg, h1, h2, h3⟩ := h
    exact Or.inr (Or.inr (Or.inr (Or.inl ⟨g, hg, h1, h2, hgrant g hg h1 h2 h3⟩)))
  · obtain ⟨hperm, m, hm, h1, h2⟩ := h
    exact Or.inr (Or.inr (Or.inr (Or.inr ⟨hrole hperm, m, hm, h1, h2⟩)))

/-- Witness for the amended C1: a workspace owner on their own private
project, with no grants and no role. -/
theorem edit_implies_view_amended_witness :
    can_user_edit_project
        { workspaces := [{ id := 1, ownerId := 1 }], workspaceMembers := [],
          projects := [{ id := 1, workspace := { id := 1, ownerId := 1 },
                         visibility := "private" }],
          projectMembers := [], projectAccess := [], rolePermissions := [] }
        { id := 1, role := none }
        { id := 1, workspace := { id := 1, ownerId := 1 }, visibility := "private" } = true ∧
      can_user_view_project
        { workspaces := [{ id := 1, ownerId := 1 }], workspaceMembers := [],
          projects := [{ id := 1, workspace := { id := 1, ownerId := 1 },
                         visibility := "private" }],
          projectMembers := [], projectAccess := [], rolePermissions := [] }
        { id := 1, role := none }
        { id := 1, workspace := { id := 1, ownerId := 1 }, visibility := "private" } = true :=
  ⟨by decide,
   edit_implies_view_amended _ _ _ (by simp) (by decide) (by decide)⟩

/-- C2: can_user_view_project returns true exactly when one of the five view
conditions holds (direct membership, workspace ownership, workspace
adminship, an explicit can_view grant, or public visibility plus workspace
membership); in particular the short-circuit order is semantically
irrelevant, the function computes the plain disjunction. -/
theorem can_view_project_five_rules (db : DB) (user : User) (project : Project) :
    can_user_view_project db user project = true ↔
      ViewRule1 db user project ∨ ViewRule2 user project ∨ ViewRule3 db user project ∨
        ViewRule4 db user project ∨ ViewRule5 db user project :=
  can_user_view_project_iff db user project

/-- C3: for every project row of the store (with intact, id-unique workspace
references), membership in `get_accessible_projects user` coincides with
`can_user_view_project user project` — the set-builder query and the
per-project boolean check are equivalent. -/
theorem get_accessible_iff_can_view (db : DB) (u : User) (p : Project)
    (hp : p ∈ db.projects)
    (hwf : ∀ q ∈ db.projects, q.workspace ∈ db.workspaces)
    (hwid : ∀ w1 ∈ db.workspaces, ∀ w2 ∈ db.workspaces, w1.id = w2.id → w1 = w2) :
    p ∈ get_accessible_projects db u ↔ can_user_view_project db u p = true := by
  rw [can_user_view_project_iff]
  unfold get_accessible_projects
  rw [List.mem_filter]
  simp only [hp, true_and]
  rw [Bool.or_eq_true, Bool.or_eq_true, Bool.or_eq_true]
  rw [mem_member_project_ids_iff db u p hp, mem_admin_owned_iff db u p hp hwf hwid,
    mem_granted_project_ids_iff db u p, mem_public_member_iff db u p]
  tauto

/-- Witness for C3: a workspace owner sees their project in the accessible
set. -/
theorem get_accessible_iff_can_view_witness :
    ({ id := 5, workspace := { id := 2, ownerId := 7 }, visibility := "private" } : Project) ∈
      get_accessible_projects
        { workspaces := [{ id := 2, ownerId := 7 }], workspaceMembers := [],
          projects := [{ id := 5, workspace := { id := 2, ownerId := 7 },
                         visibility := "private" }],
          projectMembers := [], projectAccess := [], rolePermissions := [] }
        { id := 7, role := none } :=
  (get_accessible_iff_can_view _ _ _ (by decide) (by decide) (by decide)).mpr (by decide)

/-- C4: when the trigger runs for a Done task, the task's sprint is set to
Completed exactly when the sprint has at least one task, all its tasks are
Done, and it is not already Completed; in every other case the whole state is
unchanged and no completion event of any kind is emitted (so the cascade
never reaches the milestone level). -/
theorem sprint_completion_characterized (st : CState) (task : TaskRow) (s : SprintRow)
    (htask : task.status = "Done")
    (hs : findSprint st task.sprintId = some s) :
    (0 < sprintTaskCount st task.sprintId ∧
        sprintDoneCount st task.sprintId = sprintTaskCount st task.sprintId ∧
        s.status ≠ "Completed" →
      (findSprint (trigger_auto_completion st task).1 task.sprintId).map
          SprintRow.status = some "Completed" ∧
        CEvent.sprintCompleted task.sprintId ∈ (trigger_auto_completion st task).2) ∧
    (¬(0 < sprintTaskCount st task.sprintId ∧
        sprintDoneCount st task.sprintId = sprintTaskCount st task.sprintId ∧
        s.status ≠ "Completed") →
      trigger_auto_completion st task = (st, [])) := by
  have htr : trigger_auto_completion st task = checkAndCompleteSprint st task.sprintId := by
    simp [trigger_auto_completion, htask]
  rw [htr]
  constructor
  · rintro ⟨h0, hd, hc⟩
    have h0' : sprintTaskCount st task.sprintId ≠ 0 := Nat.pos_iff_ne_zero.mp h0
    have hres : checkAndCompleteSprint st task.sprintId =
        ((checkAndCompleteMilestone (setSprintStatus st task.sprintId "Completed")
            s.milestoneId).1,
          CEvent.sprintCompleted task.sprintId ::
            (checkAndCompleteMilestone (setSprintStatus st task.sprintId "Completed")
              s.milestoneId).2) := by
      simp [checkAndCompleteSprint, hs, h0', hd, hc]
    rw [hres]
    constructor
    · have hsp : (checkAndCompleteMilestone (setSprintStatus st task.sprintId "Completed")
          s.milestoneId).1.sprints = (setSprintStatus st task.sprintId "Completed").sprints :=
        checkAndCompleteMilestone_sprints _ _
      have hfind : findSprint (checkAndCompleteMilestone
            (setSprintStatus st task.sprintId "Completed") s.milestoneId).1 task.sprintId =
          findSprint (setSprintStatus st task.sprintId "Completed") task.sprintId := by
        unfold findSprint
        rw [hsp]
      simp only [hfind, findSprint_setSprintStatus, hs]
      rfl
    · simp
  · intro hne
    by_cases h0 : sprintTaskCount st task.sprintId = 0
    · simp [checkAndCompleteSprint, hs, h0]
    · by_cases hd : sprintDoneCount st task.sprintId = sprintTaskCount st task.sprintId
      · have hc : s.status = "Completed" := by
          by_contra hc
          exact hne ⟨Nat.pos_of_ne_zero h0, hd, hc⟩
        simp [checkAndCompleteSprint, hs, h0, hd, hc]
      · simp [checkAndCompleteSprint, hs, h0, hd]

/-- Witness for C4: one sprint holding one Done task gets completed and
notified. -/
theorem sprint_completion_characterized_witness :
    (findSprint (trigger_auto_completion
        { tasks := [{ id := 1, sprintId := 1, status := "Done" }],
          sprints := [{ id := 1, milestoneId := 1, status := "Active" }],
          milestones := [], projects := [] }
        { id := 1, sprintId := 1, status := "Done" }).1 1).map
        SprintRow.status = some "Completed" ∧
      CEvent.sprintCompleted 1 ∈ (trigger_auto_completion
        { tasks := [{ id := 1, sprintId := 1, status := "Done" }],
          sprints := [{ id := 1, milestoneId := 1, status := "Active" }],
          milestones := [], projects := [] }
        { id := 1, sprintId := 1, status := "Done" }).2 :=
  (sprint_completion_characterized
    { tasks := [{ id := 1, sprintId := 1, status := "Done" }],
      sprints := [{ id := 1, milestoneId := 1, status := "Active" }],
      milestones := [], projects := [] }
    { id := 1, sprintId := 1, status := "Done" }
    { id := 1, milestoneId := 1, status := "Active" }
    (by decide) (by decide)).1 (by decide)

/-- C5: the completion trigger is idempotent — running it again on the state
produced by a first run (same task object) changes nothing and emits no
events, and running it on a task that is not Done does nothing at all. -/
theorem completion_trigger_idempotent (st : CState) (task : TaskRow) :
    trigger_auto_completion (trigger_auto_completion st task).1 task =
      ((trigger_auto_completion st task).1, []) ∧
    (task.status ≠ "Done" → trigger_auto_completion st task = (st, [])) := by
  constructor
  · by_cases h : task.status = "Done"
    · simp only [trigger_auto_completion, h]
      simp only [ne_eq, not_true_eq_false, if_false]
      exact checkAndCompleteSprint_idem st task.sprintId
    · simp [trigger_auto_completion, h]
  · intro h
    simp [trigger_auto_completion, h]

/-- Witness for C5: re-running the trigger after a full cascade is a no-op,
and a To-do task never triggers. -/
theorem completion_trigger_idempotent_witness :
    trigger_auto_completion (trigger_auto_completion
        { tasks := [{ id := 1, sprintId := 1, status := "Done" }],
          sprints := [{ id := 1, milestoneId := 1, status := "Active" }],
          milestones := [{ id := 1, projectId := 1, status := "Active" }],
          projects := [{ id := 1, workspaceId := 1, status := "Active" }] }
        { id := 1, sprintId := 1, status := "Done" }).1
        { id := 1, sprintId := 1, status := "Done" } =
      ((trigger_auto_completion
        { tasks := [{ id := 1, sprintId := 1, status := "Done" }],
          sprints := [{ id := 1, milestoneId := 1, status := "Active" }],
          milestones := [{ id := 1, projectId := 1, status := "Active" }],
          projects := [{ id := 1, workspaceId := 1, status := "Active" }] }
        { id := 1, sprintId := 1, status := "Done" }).1, []) ∧
    trigger_auto_completion
        { tasks := [{ id := 1, sprintId := 1, status := "Done" }],
          sprints := [{ id := 1, milestoneId := 1, status := "Active" }],
          milestones := [{ id := 1, projectId := 1, status := "Active" }],
          projects := [{ id := 1, workspaceId := 1, status := "Active" }] }
        { id := 2, sprintId := 1, status := "To-do" } =
      ({ tasks := [{ id := 1, sprintId := 1, status := "Done" }],
          sprints := [{ id := 1, milestoneId := 1, status := "Active" }],
          milestones := [{ id := 1, projectId := 1, status := "Active" }],
          projects := [{ id := 1, workspaceId := 1, status := "Active" }] }, []) :=
  ⟨(completion_trigger_idempotent _ _).1,
   (completion_trigger_idempotent _ _).2 (by decide)⟩

/-- C10: Task.save fires the cascade when a task is first persisted already
in status Done (absent old status counts as not-Done), exactly as it does for
an existing not-Done task transitioning to Done, while re-saving a task whose
persisted status was already Done performs the write but never re-triggers. -/
theorem task_save_done_edges (st : CState) (oldNotDone oldDone t : TaskRow)
    (ht : t.status = "Done") (hA : oldNotDone.status ≠ "Done")
    (hD : oldDone.status = "Done") :
    taskSave st none t = trigger_auto_completion (persistTask st t) t ∧
    taskSave st (some oldNotDone) t = trigger_auto_completion (persistTask st t) t ∧
    taskSave st (some oldDone) t = (persistTask st t, []) := by
  unfold taskSave
  refine ⟨?_, ?_, ?_⟩
  · simp [ht]
  · simp [ht, hA]
  · simp [hD]

/-- Witness for C10: creating a Done task completes its sprint; re-saving an
already-Done task does not. -/
theorem task_save_done_edges_witness :
    taskSave
        { tasks := [], sprints := [{ id := 1, milestoneId := 1, status := "Active" }],
          milestones := [], projects := [] }
        none { id := 1, sprintId := 1, status := "Done" } =
      trigger_auto_completion
        (persistTask
          { tasks := [], sprints := [{ id := 1, milestoneId := 1, status := "Active" }],
            milestones := [], projects := [] }
          { id := 1, sprintId := 1, status := "Done" })
        { id := 1, sprintId := 1, status := "Done" } ∧
    taskSave
        { tasks := [], sprints := [{ id := 1, milestoneId := 1, status := "Active" }],
          milestones := [], projects := [] }
        (some { id := 1, sprintId := 1, status := "Done" })
        { id := 1, sprintId := 1, status := "Done" } =
      (persistTask
        { tasks := [], sprints := [{ id := 1, milestoneId := 1, status := "Active" }],
          milestones := [], projects := [] }
        { id := 1, sprintId := 1, status := "Done" }, []) :=
  ⟨(task_save_done_edges _ { id := 9, sprintId := 1, status := "To-do" }
      { id := 1, sprintId := 1, status := "Done" } _ (by decide) (by decide) (by decide)).1,
   (task_save_done_edges _ { id := 9, sprintId := 1, status := "To-do" }
      { id := 1, sprintId := 1, status := "Done" } _ (by decide) (by decide) (by decide)).2.2⟩

/-! ### Audit diff lemmas -/

lemma aget_eq_vnone_of_not_mem (st : AState) (k : String) (h : k ∉ st.map Prod.fst) :
    aget st k = AVal.vnone := by
  unfold aget
  cases hf : st.find? (fun kv => kv.1 == k) with
  | none => rfl
  | some kv =>
    exfalso
    have hmem := List.mem_of_find?_eq_some hf
    have hpred := List.find?_some hf
    simp only [beq_iff_eq] at hpred
    exact h (by rw [← hpred]; exact List.mem_map_of_mem Prod.fst hmem)

lemma mem_allKeys_iff (os ns : AState) (k : String) :
    k ∈ allKeys os ns ↔ k ∈ os.map Prod.fst ∨ k ∈ ns.map Prod.fst := by
  simp [allKeys]

lemma mem_changed_fields_iff (os ns : AState) (k : String) :
    k ∈ (compute_changes os ns).map Prod.fst ↔
      valuesDiffer (aget os k) (aget ns k) = true := by
  unfold compute_changes
  constructor
  · intro hk
    rw [List.mem_map] at hk
    obtain ⟨trip, htrip, hfst⟩ := hk
    rw [List.mem_filterMap] at htrip
    obtain ⟨a, ha, hfa⟩ := htrip
    by_cases hdif : valuesDiffer (aget os a) (aget ns a) = true
    · simp only [hdif, if_true] at hfa
      have ht := Option.some.inj hfa
      have : a = k := by
        rw [← hfst, ← ht]
      rw [← this]
      exact hdif
    · simp only [hdif] at hfa
      simp at hfa
  · intro hdif
    have hk : k ∈ allKeys os ns := by
      by_contra hk
      rw [mem_allKeys_iff] at hk
      push_neg at hk
      rw [aget_eq_vnone_of_not_mem os k hk.1, aget_eq_vnone_of_not_mem ns k hk.2] at hdif
      exact absurd hdif (by decide)
    rw [List.mem_map]
    refine ⟨(k, aget os k, aget ns k), ?_, rfl⟩
    rw [List.mem_filterMap]
    exact ⟨k, hk, by simp [hdif]⟩

/-- C6 (counterexample): with a supplied old_state that is the *empty* map,
Python truthiness (`... if old_state else {}`) skips the diff, so
`changed_fields` is `[]` even though the freshly serialized new state
disagrees with the old state at key `"status"`. -/
theorem log_update_changed_fields_counterexample :
    log_update_changed_fields (some [])
        (serialize_model_state [("status", Except.ok (PyVal.pystr "Done"))]) = [] ∧
      valuesDiffer (aget [] "status")
        (aget (serialize_model_state [("status", Except.ok (PyVal.pystr "Done"))])
          "status") = true :=
  ⟨rfl, rfl⟩

/-- C6 (amended): whenever the supplied old_state is non-empty,
`changed_fields` contains exactly the keys at which old and new state differ,
with nested FK maps compared by id only; when old_state is None or the empty
map, `changed_fields` is `[]`. -/
theorem log_update_changed_fields_amended (os ns : AState) (k : String) (hos : os ≠ []) :
    (k ∈ log_update_changed_fields (some os) ns ↔
      valuesDiffer (aget os k) (aget ns k) = true) ∧
    log_update_changed_fields none ns = [] ∧
    log_update_changed_fields (some []) ns = [] := by
  refine ⟨?_, rfl, rfl⟩
  have hempty : os.isEmpty = false := by
    cases os with
    | nil => exact absurd rfl hos
    | cons a l => rfl
  unfold log_update_changed_fields
  simp only [hempty, Bool.false_eq_true, if_false]
  exact mem_changed_fields_iff os ns k

/-- Witness for the amended C6: the spec's own example — status To-do to
Done yields exactly the changed key "status". -/
theorem log_update_changed_fields_amended_witness :
    "status" ∈ log_update_changed_fields (some [("status", AVal.vstr "To-do")])
        (serialize_model_state [("status", Except.ok (PyVal.pystr "Done"))]) :=
  ((log_update_changed_fields_amended [("status", AVal.vstr "To-do")]
      (serialize_model_state [("status", Except.ok (PyVal.pystr "Done"))]) "status"
      (by decide)).1).mpr (by decide)

/-- C7: can_user_edit_task follows the four-rule order — project editors get
everything, otherwise the assignee gets the limited field list, otherwise the
`task.edit` role permission together with project view access gets
everything, otherwise nothing. -/
theorem can_user_edit_task_cases (db : DB) (u : User) (t : PTask) :
    (can_user_edit_project db u t.sprint.milestone.project = true →
      can_user_edit_task db u t = ⟨true, .all⟩) ∧
    (can_user_edit_project db u t.sprint.milestone.project = false →
      t.assigneeId = some u.id →
      can_user_edit_task db u t =
        ⟨true, .fields ["status", "description", "start_date", "due_date"]⟩) ∧
    (can_user_edit_project db u t.sprint.milestone.project = false →
      t.assigneeId ≠ some u.id →
      has_role_permission db u "task.edit" = true →
      can_user_view_project db u t.sprint.milestone.project = true →
      can_user_edit_task db u t = ⟨true, .all⟩) ∧
    (can_user_edit_project db u t.sprint.milestone.project = false →
      t.assigneeId ≠ some u.id →
      ¬(has_role_permission db u "task.edit" = true ∧
          can_user_view_project db u t.sprint.milestone.project = true) →
      can_user_edit_task db u t = ⟨false, .fields []⟩) := by
  refine ⟨?_, ?_, ?_, ?_⟩
  · intro h1
    simp [can_user_edit_task, h1]
  · intro h1 h2
    simp [can_user_edit_task, h1, h2]
  · intro h1 h2 h3 h4
    simp [can_user_edit_task, h1, h2, h3, h4]
  · intro h1 h2 h3
    by_cases hr : has_role_permission db u "task.edit" = true
    · have hv : ¬can_user_view_project db u t.sprint.milestone.project = true :=
        fun hv => h3 ⟨hr, hv⟩
      simp [can_user_edit_task, h1, h2, hr, hv]
    · simp [can_user_edit_task, h1, h2, hr]

/-- Witness for C7: a bare assignee gets the limited field list. -/
theorem can_user_edit_task_cases_witness :
    can_user_edit_task
        { workspaces := [{ id := 1, ownerId := 2 }], workspaceMembers := [],
          projects := [], projectMembers := [], projectAccess := [],
          rolePermissions := [] }
        { id := 1, role := none }
        { sprint := { milestone := { project :=
            { id := 1, workspace := { id := 1, ownerId := 2 }, visibility := "private" } } },
          assigneeId := some 1, reporterId := none } =
      ⟨true, .fields ["status", "description", "start_date", "due_date"]⟩ :=
  (can_user_edit_task_cases _ _ _).2.1 (by decide) (by decide)

/-- C8: a user without a role fails every role-permission check, whatever
rows the RolePermission table holds; with a role, the check is exactly row
existence for (role, permission_type). -/
theorem has_role_permission_default_deny (db : DB) (u : User) (p : String) :
    (u.role = none → has_role_permission db u p = false) ∧
    ∀ r, u.role = some r →
      (has_role_permission db u p = true ↔
        ∃ rp ∈ db.rolePermissions, rp.roleId = r ∧ rp.permissionType = p) := by
  constructor
  · intro h
    simp [has_role_permission, h]
  · intro r h
    simp [has_role_permission, h, List.any_eq_true, Bool.and_eq_true, beq_iff_eq]

/-- Witness for C8: role-less user denied a permission every existing role
has. -/
theorem has_role_permission_default_deny_witness :
    has_role_permission
        { workspaces := [], workspaceMembers := [], projects := [], projectMembers := [],
          projectAccess := [],
          rolePermissions := [{ roleId := 10, permissionType := "project.edit" },
                              { roleId := 11, permissionType := "project.edit" }] }
        { id := 1, role := none } "project.edit" = false :=
  (has_role_permission_default_deny _ _ _).1 rfl

/-- C9: every audit entry point returns an entry for every input — in
particular a task with a null parent mid-chain, whose raw context enrichment
genuinely raises, still never propagates a failure to the caller, because the
exception is caught inside `get_entity_context` (and per-field inside
`serialize_model_state`). -/
theorem audit_failures_suppressed (t : CtxTask) (a : String)
    (oldState newState : Option AState) :
    (t.sprint = none → get_entity_context_raw t = Except.error "AttributeError") ∧
    (∃ e, log_update t oldState = Except.ok e) ∧
    (∃ e, log_create t = Except.ok e) ∧
    (∃ e, log_delete t = Except.ok e) ∧
    (∃ e, log_event t a oldState newState = Except.ok e) := by
  refine ⟨?_, ⟨_, rfl⟩, ⟨_, rfl⟩, ⟨_, rfl⟩, ⟨_, rfl⟩⟩
  intro h
  unfold get_entity_context_raw
  rw [h]
  rfl

/-- Witness for C9: a task whose sprint reference is null. -/
theorem audit_failures_suppressed_witness :
    get_entity_context_raw { id := 1, title := "t", sprint := none, fields := [] } =
        Except.error "AttributeError" ∧
      ∃ e, log_update { id := 1, title := "t", sprint := none, fields := [] } none =
        Except.ok e :=
  ⟨(audit_failures_suppressed { id := 1, title := "t", sprint := none, fields := [] }
      "UPDATED" none none).1 rfl,
   (audit_failures_suppressed { id := 1, title := "t", sprint := none, fields := [] }
      "UPDATED" none none).2.1⟩
